import Mathlib

/-!
Shallow embedding of `src/version_file.rs` from the `update-informer` crate:
the on-disk version cache (`VersionFile`) with its operations `new`,
`last_modified`, `recreate_file`, `write_version`, `get_version`.

The filesystem is modelled as a map from paths to file data (content plus an
optional modification timestamp; `none` models a platform whose metadata does
not report a modification time, which makes `std::fs::Metadata::modified`
return an error).  Times are natural numbers.  Fallible operations return
`Except` and thread the filesystem state explicitly.
-/

namespace UpdateInformer

/-- Modelled from the spec: the package identifier (`Package` lives in
`src/lib.rs`, which is not under `src/`): a `name` and an optional
`owner`, exactly the two fields `version_file.rs` reads (`pkg.owner`,
`pkg.name`). -/
structure Package where
  name : String
  owner : Option String
  deriving DecidableEq, Repr

/-- Subset of `std::io::ErrorKind` used by the code: `NotFound` is matched
explicitly in `last_modified`; the others stand for the remaining kinds. -/
inductive IoErrorKind where
  | notFound
  | permissionDenied
  | unsupported
  deriving DecidableEq, Repr

/-- Modelled from the spec: the crate error type (`Error` lives in
`src/lib.rs`, not under `src/`): `CacheUnavailable` when the platform cache
directory cannot be determined, `Io` wrapping a filesystem error. -/
inductive Error where
  | cacheUnavailable
  | io (kind : IoErrorKind)
  deriving DecidableEq, Repr

/-- Data stored for one file: its contents and the modification time that
`fs::metadata(..).modified()` would report (`none` when the platform cannot
report one, in which case `modified()` errors). -/
structure FileData where
  content : String
  mtime : Option Nat
  deriving DecidableEq, Repr

/-- Filesystem state: the files, a writability predicate (false models
permission-denied on write or delete), and the current clock. -/
structure Fs where
  files : String → Option FileData
  writable : String → Bool
  now : Nat

/-- Embedding of `std::fs::metadata`: errors with `NotFound` when the path
has no file. -/
def fsMetadata (fs : Fs) (path : String) : Except IoErrorKind FileData :=
  match fs.files path with
  | none => .error .notFound
  | some d => .ok d

/-- Embedding of `std::fs::write`: creates the file if absent and entirely
replaces its contents otherwise, stamping the current time; fails when the
path is not writable. -/
def fsWrite (fs : Fs) (path content : String) : Except IoErrorKind Unit × Fs :=
  if fs.writable path then
    (.ok (), { fs with
      files := fun p => if p = path then some ⟨content, some fs.now⟩ else fs.files p })
  else
    (.error .permissionDenied, fs)

/-- Embedding of `std::fs::remove_file`: errors with `NotFound` when the file
does not exist, with `PermissionDenied` when it cannot be removed. -/
def fsRemove (fs : Fs) (path : String) : Except IoErrorKind Unit × Fs :=
  match fs.files path with
  | none => (.error .notFound, fs)
  | some _ =>
    if fs.writable path then
      (.ok (), { fs with files := fun p => if p = path then none else fs.files p })
    else
      (.error .permissionDenied, fs)

/-- Embedding of `std::fs::read_to_string`: errors with `NotFound` when the
file does not exist. -/
def fsReadToString (fs : Fs) (path : String) : Except IoErrorKind String :=
  match fs.files path with
  | none => .error .notFound
  | some d => .ok d.content

/-- Embedding of `std::time::SystemTime::elapsed`: errors when the stored
time lies in the future of the clock (clock skew). -/
def sysElapsed (now t : Nat) : Except Unit Nat :=
  if t ≤ now then .ok (now - t) else .error ()

/-- Embedding of `Result::unwrap_or_default` at `Duration`: a zero duration
on error. -/
def unwrapOrDefault (r : Except Unit Nat) : Nat :=
  match r with
  | .ok v => v
  | .error _ => 0

/-- The `VERSION_SUFFIX` constant of `version_file.rs`. -/
def VERSION_SUFFIX : String := "latest-version"

/-- The cached version file: `path` on disk and the seed `version` supplied
at construction (`struct VersionFile` in `version_file.rs`). -/
structure VersionFile where
  path : String
  version : String
  deriving DecidableEq, Repr

/-- Embedding of `cache_path()`: the platform cache directory, given here as
a parameter (`none` models `ProjectDirs::from` finding no directory, the
`"Unable to find cache directory"` error). -/
def cache_path (platformCacheDir : Option String) : Except Error String :=
  match platformCacheDir with
  | none => .error .cacheUnavailable
  | some d => .ok d

/-- Embedding of `PathBuf::join` for a directory and a file name. -/
def pathJoin (dir name : String) : String := dir ++ "/" ++ name

/-- The owner string of `VersionFile::new`: `format!("{}-", owner)` when the
package has an owner, `""` otherwise. -/
def ownerString (pkg : Package) : String :=
  match pkg.owner with
  | some o => o ++ "-"
  | none => ""

/-- The file name computed by `VersionFile::new`:
`format!("{}-{}{}-{}", registry, owner, pkg.name, VERSION_SUFFIX)`. -/
def versionFileName (registry : String) (pkg : Package) : String :=
  registry ++ "-" ++ ownerString pkg ++ pkg.name ++ "-" ++ VERSION_SUFFIX

/-- Embedding of `VersionFile::new`. -/
def VersionFile.new (platformCacheDir : Option String) (registry : String)
    (pkg : Package) (version : String) : Except Error VersionFile :=
  match cache_path platformCacheDir with
  | .error e => .error e
  | .ok dir => .ok ⟨pathJoin dir (versionFileName registry pkg), version⟩

/-- Embedding of `VersionFile::write_version`. -/
def VersionFile.write_version (vf : VersionFile) (fs : Fs) (version : String) :
    Except IoErrorKind Unit × Fs :=
  fsWrite fs vf.path version

/-- Embedding of `VersionFile::get_version`. -/
def VersionFile.get_version (vf : VersionFile) (fs : Fs) :
    Except IoErrorKind String :=
  fsReadToString fs vf.path

/-- Embedding of `VersionFile::recreate_file`: `fs::remove_file(&self.path)?`
then `self.write_version(&self.version)`. -/
def VersionFile.recreate_file (vf : VersionFile) (fs : Fs) :
    Except IoErrorKind Unit × Fs :=
  match fsRemove fs vf.path with
  | (.error e, fs') => (.error e, fs')
  | (.ok _, fs') => vf.write_version fs' vf.version

/-- Embedding of `VersionFile::last_modified`: on `NotFound` from
`fs::metadata`, writes the seed version and returns a zero duration; other
metadata errors propagate; otherwise `metadata.modified()?.elapsed()` with
`unwrap_or_default()`, so a `modified()` failure propagates while an
`elapsed()` failure (clock skew) is clamped to zero. -/
def VersionFile.last_modified (vf : VersionFile) (fs : Fs) :
    Except Error Nat × Fs :=
  match fsMetadata fs vf.path with
  | .error e =>
    if e = .notFound then
      match vf.write_version fs vf.version with
      | (.ok _, fs') => (.ok 0, fs')
      | (.error e', fs') => (.error (.io e'), fs')
    else
      (.error (.io e), fs)
  | .ok meta =>
    match meta.mtime with
    | none => (.error (.io .unsupported), fs)
    | some t => (.ok (unwrapOrDefault (sysElapsed fs.now t)), fs)

deriving instance DecidableEq for Except

/-- C1: for every entry whose backing cache file does not exist (and whose
path is writable), `last_modified` does not return an error for the missing
file: it writes the seed version and returns a zero duration, and a
subsequent `get_version` returns exactly the seed version. -/
theorem c1_missing_file_bootstrap (vf : VersionFile) (fs : Fs)
    (hmiss : fs.files vf.path = none) (hw : fs.writable vf.path = true) :
    ∃ fs', vf.last_modified fs = (.ok 0, fs') ∧
      vf.get_version fs' = .ok vf.version := by
  have hfs : vf.last_modified fs = (.ok 0,
      { fs with files := fun p =>
          if p = vf.path then some ⟨vf.version, some fs.now⟩ else fs.files p }) := by
    simp [VersionFile.last_modified, fsMetadata, hmiss, VersionFile.write_version,
      fsWrite, hw]
  refine ⟨_, hfs, ?_⟩
  simp [VersionFile.get_version, fsReadToString]

/-- Witness for C1 at a concrete entry over an empty filesystem. -/
theorem c1_missing_file_bootstrap_witness :
    ∃ fs', (VersionFile.mk "d/reg-repo-latest-version" "0.1.0").last_modified
        ⟨fun _ => none, fun _ => true, 7⟩ = (.ok 0, fs') ∧
      (VersionFile.mk "d/reg-repo-latest-version" "0.1.0").get_version fs' =
        .ok "0.1.0" :=
  c1_missing_file_bootstrap _ _ rfl rfl

/-- C2: for every entry (with a writable path) and every version string `s`,
`write_version s` succeeds and a following `get_version` returns exactly `s`,
regardless of any prior contents of the file: the write fully replaces prior
contents and creates the file if absent. -/
theorem c2_write_read_roundtrip (vf : VersionFile) (fs : Fs) (s : String)
    (hw : fs.writable vf.path = true) :
    ∃ fs', vf.write_version fs s = (.ok (), fs') ∧
      vf.get_version fs' = .ok s := by
  have hfs : vf.write_version fs s = (.ok (),
      { fs with files := fun p =>
          if p = vf.path then some ⟨s, some fs.now⟩ else fs.files p }) := by
    simp [VersionFile.write_version, fsWrite, hw]
  refine ⟨_, hfs, ?_⟩
  simp [VersionFile.get_version, fsReadToString]

/-- Witness for C2 at a concrete entry whose file holds prior contents. -/
theorem c2_write_read_roundtrip_witness :
    ∃ fs', (VersionFile.mk "p" "1.0.0").write_version
        ⟨fun q => if q = "p" then some ⟨"old-stuff", some 0⟩ else none,
         fun _ => true, 3⟩ "2.0.0" = (.ok (), fs') ∧
      (VersionFile.mk "p" "1.0.0").get_version fs' = .ok "2.0.0" :=
  c2_write_read_roundtrip _ _ "2.0.0" rfl

/-- C3: `recreate_file` first deletes the existing file and only then writes
the seed version; whenever the deletion fails — in particular when the file
does not exist — the error is returned and the write never happens, the
filesystem coming back exactly unchanged; on successful deletion it
continues with `write_version` of the seed on the post-deletion state. -/
theorem c3_recreate_delete_then_write (vf : VersionFile) (fs : Fs) :
    (∀ e, (fsRemove fs vf.path).1 = .error e →
      vf.recreate_file fs = (.error e, fs)) ∧
    (fs.files vf.path = none →
      vf.recreate_file fs = (.error .notFound, fs)) ∧
    (∀ fs', fsRemove fs vf.path = (.ok (), fs') →
      vf.recreate_file fs = vf.write_version fs' vf.version) := by
  rcases hf : fs.files vf.path with _ | d
  · have hrem : fsRemove fs vf.path = (.error .notFound, fs) := by
      simp [fsRemove, hf]
    refine ⟨?_, ?_, ?_⟩
    · intro e he
      rw [hrem] at he
      simp at he
      subst he
      simp [VersionFile.recreate_file, hrem]
    · intro _
      simp [VersionFile.recreate_file, hrem]
    · intro fs' h
      rw [hrem] at h
      simp at h
  · cases hw : fs.writable vf.path with
    | false =>
      have hrem : fsRemove fs vf.path = (.error .permissionDenied, fs) := by
        simp [fsRemove, hf, hw]
      refine ⟨?_, ?_, ?_⟩
      · intro e he
        rw [hrem] at he
        simp at he
        subst he
        simp [VersionFile.recreate_file, hrem]
      · intro hnone
        simp at hnone
      · intro fs' h
        rw [hrem] at h
        simp at h
    | true =>
      have hrem : fsRemove fs vf.path = (.ok (),
          { fs with files := fun q => if q = vf.path then none else fs.files q }) := by
        simp [fsRemove, hf, hw]
      refine ⟨?_, ?_, ?_⟩
      · intro e he
        rw [hrem] at he
        simp at he
      · intro hnone
        simp at hnone
      · intro fs' h
        rw [hrem] at h
        have h2 := congrArg Prod.snd h
        simp at h2
        subst h2
        simp [VersionFile.recreate_file, hrem]

/-- Witness for C3: a missing file makes `recreate_file` fail with not-found
and leave the filesystem unchanged, and an unwritable file makes it fail
with permission-denied, again leaving the filesystem unchanged. -/
theorem c3_recreate_delete_then_write_witness :
    (VersionFile.mk "p" "1.0.0").recreate_file ⟨fun _ => none, fun _ => true, 0⟩ =
      (.error .notFound, ⟨fun _ => none, fun _ => true, 0⟩) ∧
    (VersionFile.mk "p" "1.0.0").recreate_file
        ⟨fun _ => some ⟨"0.1.0", some 0⟩, fun _ => false, 5⟩ =
      (.error .permissionDenied, ⟨fun _ => some ⟨"0.1.0", some 0⟩, fun _ => false, 5⟩) :=
  ⟨(c3_recreate_delete_then_write _ _).2.1 rfl,
   (c3_recreate_delete_then_write _ _).1 .permissionDenied rfl⟩

/-- C5: `VersionFile.new` computes the cache file's basename as
`"{registry}-{owner}-{package}-latest-version"` when the package has an
owner and `"{registry}-{package}-latest-version"` when it has none, joined
to the resolved cache directory. -/
theorem c5_file_name (d registry owner name v : String) :
    VersionFile.new (some d) registry ⟨name, some owner⟩ v =
      .ok ⟨d ++ "/" ++ (registry ++ "-" ++ owner ++ "-" ++ name ++ "-latest-version"), v⟩ ∧
    VersionFile.new (some d) registry ⟨name, none⟩ v =
      .ok ⟨d ++ "/" ++ (registry ++ "-" ++ name ++ "-latest-version"), v⟩ := by
  have hlv : ("-" ++ "latest-version" : String) = "-latest-version" := rfl
  constructor <;>
    simp [VersionFile.new, cache_path, pathJoin, versionFileName, ownerString,
      VERSION_SUFFIX, String.append_assoc, hlv]

/-- C7: `get_version` on an entry whose backing file does not exist fails
with the not-found I/O error; it never returns an empty or default string. -/
theorem c7_missing_file_read_errors (vf : VersionFile) (fs : Fs)
    (h : fs.files vf.path = none) :
    vf.get_version fs = .error .notFound := by
  simp [VersionFile.get_version, fsReadToString, h]

/-- Witness for C7 at a concrete entry over an empty filesystem. -/
theorem c7_missing_file_read_errors_witness :
    (VersionFile.mk "p" "1.0.0").get_version ⟨fun _ => none, fun _ => true, 0⟩ =
      .error .notFound :=
  c7_missing_file_read_errors _ _ rfl

/-- C8: the path produced by `VersionFile.new` is deterministic and
independent of the seed version: the same platform directory, registry and
package with any two seed versions yield entries with identical paths. -/
theorem c8_path_independent_of_seed (pcd : Option String) (r : String)
    (pkg : Package) (v₁ v₂ : String) :
    (VersionFile.new pcd r pkg v₁).map VersionFile.path =
      (VersionFile.new pcd r pkg v₂).map VersionFile.path := by
  cases pcd <;> rfl

/-- C4 (amended): for every entry whose backing file exists and whose
modification time is available, `last_modified` returns now minus the
modification time, clamped to zero when the reported time lies in the
future (clock skew), leaving the filesystem unchanged.  An error retrieving
the modification time itself is, by contrast, propagated (see the
counterexample theorem). -/
theorem c4_elapsed_clamped_on_skew (vf : VersionFile) (fs : Fs) (c : String)
    (t : Nat) (h : fs.files vf.path = some ⟨c, some t⟩) :
    vf.last_modified fs = (.ok (if t ≤ fs.now then fs.now - t else 0), fs) := by
  have hv : unwrapOrDefault (sysElapsed fs.now t) =
      if t ≤ fs.now then fs.now - t else 0 := by
    by_cases ht : t ≤ fs.now <;> simp [sysElapsed, unwrapOrDefault, ht]
  simp [VersionFile.last_modified, fsMetadata, h, hv]

/-- Witness for the amended C4 at a concrete entry with a skewed clock: the
file's modification time 10 lies in the future of the clock 5, and the
returned duration is clamped. -/
theorem c4_elapsed_clamped_on_skew_witness :
    (VersionFile.mk "p" "0.1.0").last_modified
        ⟨fun q => if q = "p" then some ⟨"1.0.0", some 10⟩ else none,
         fun _ => true, 5⟩ =
      (.ok (if 10 ≤ 5 then 5 - 10 else 0),
        ⟨fun q => if q = "p" then some ⟨"1.0.0", some 10⟩ else none,
         fun _ => true, 5⟩) :=
  c4_elapsed_clamped_on_skew _ _ "1.0.0" 10 rfl

/-- Counterexample to C4 as stated: for an existing file whose modification
time cannot be retrieved (`Metadata::modified` fails), `last_modified`
propagates the error — the code applies `?` to `modified()` and
`unwrap_or_default` only to `elapsed()` — rather than clamping the result
to zero as the claim asserts for "any other timestamp-retrieval error". -/
theorem c4_modified_error_propagates :
    ((VersionFile.mk "p" "0.1.0").last_modified
        ⟨fun q => if q = "p" then some ⟨"1.0.0", none⟩ else none,
         fun _ => true, 100⟩).1 = .error (.io .unsupported) ∧
    (Except.error (.io .unsupported) : Except Error Nat) ≠ .ok 0 := by
  constructor
  · rfl
  · decide

/-- C9: for every entry whose backing file was successfully written at time
`now`, a call to `last_modified` at time `now + d` returns a duration of at
least `d` (and never a negative one: durations are naturals here), leaving
the filesystem unchanged. -/
theorem c9_age_after_write (vf : VersionFile) (fs : Fs) (v : String) (d : Nat)
    (fs₁ : Fs) (hw : vf.write_version fs v = (.ok (), fs₁)) :
    ∃ e, vf.last_modified { fs₁ with now := fs.now + d } =
      (.ok e, { fs₁ with now := fs.now + d }) ∧ d ≤ e := by
  by_cases hwr : fs.writable vf.path
  · have h1 : fs₁ = { fs with files := fun p =>
        if p = vf.path then some ⟨v, some fs.now⟩ else fs.files p } := by
      have h2 := congrArg Prod.snd hw
      simpa [VersionFile.write_version, fsWrite, hwr] using h2.symm
    subst h1
    refine ⟨d, ?_, le_refl d⟩
    simp [VersionFile.last_modified, fsMetadata, sysElapsed, unwrapOrDefault]
  · exfalso
    have h3 := congrArg Prod.fst hw
    simp [VersionFile.write_version, fsWrite, hwr] at h3

/-- Witness for C9: a file written at time 2 and aged 5 ticks reports a
duration of at least 5. -/
theorem c9_age_after_write_witness :
    ∃ e, (VersionFile.mk "p" "1.0.0").last_modified
        ⟨fun p => if p = "p" then some ⟨"2.0.0", some 2⟩ else none,
         fun _ => true, 2 + 5⟩ =
      (.ok e, ⟨fun p => if p = "p" then some ⟨"2.0.0", some 2⟩ else none,
               fun _ => true, 2 + 5⟩) ∧ 5 ≤ e :=
  c9_age_after_write (VersionFile.mk "p" "1.0.0")
    ⟨fun _ => none, fun _ => true, 2⟩ "2.0.0" 5 _ rfl

/-- C10: an entry's fields never change after construction — in this
embedding `VersionFile` is a pure value no operation rebinds, mirroring the
Rust methods taking `&self` with no interior mutability — so every
filesystem-touching operation targets only the entry's own `path`: at every
other path the filesystem is left exactly unchanged. -/
theorem c10_operations_target_only_entry_path (vf : VersionFile) (fs : Fs)
    (v q : String) (hq : q ≠ vf.path) :
    (vf.write_version fs v).2.files q = fs.files q ∧
    (vf.recreate_file fs).2.files q = fs.files q ∧
    (vf.last_modified fs).2.files q = fs.files q := by
  refine ⟨?_, ?_, ?_⟩
  · by_cases hwr : fs.writable vf.path <;>
      simp [VersionFile.write_version, fsWrite, hwr, hq]
  · rcases hf : fs.files vf.path with _ | dd
    · simp [VersionFile.recreate_file, fsRemove, hf]
    · by_cases hwr : fs.writable vf.path <;>
        simp [VersionFile.recreate_file, fsRemove, hf, hwr,
          VersionFile.write_version, fsWrite, hq]
  · rcases hf : fs.files vf.path with _ | dd
    · by_cases hwr : fs.writable vf.path <;>
        simp [VersionFile.last_modified, fsMetadata, hf,
          VersionFile.write_version, fsWrite, hwr, hq]
    · cases hm : dd.mtime <;>
        simp [VersionFile.last_modified, fsMetadata, hf, hm]

/-- Witness for C10 at a concrete entry and a concrete other path. -/
theorem c10_operations_target_only_entry_path_witness :
    ((VersionFile.mk "p" "1.0.0").write_version
        ⟨fun r => if r = "p" then some ⟨"1.0.0", some 1⟩ else none,
         fun _ => true, 9⟩ "2.0.0").2.files "q" =
      (⟨fun r => if r = "p" then some ⟨"1.0.0", some 1⟩ else none,
        fun _ => true, 9⟩ : Fs).files "q" ∧
    ((VersionFile.mk "p" "1.0.0").recreate_file
        ⟨fun r => if r = "p" then some ⟨"1.0.0", some 1⟩ else none,
         fun _ => true, 9⟩).2.files "q" =
      (⟨fun r => if r = "p" then some ⟨"1.0.0", some 1⟩ else none,
        fun _ => true, 9⟩ : Fs).files "q" ∧
    ((VersionFile.mk "p" "1.0.0").last_modified
        ⟨fun r => if r = "p" then some ⟨"1.0.0", some 1⟩ else none,
         fun _ => true, 9⟩).2.files "q" =
      (⟨fun r => if r = "p" then some ⟨"1.0.0", some 1⟩ else none,
        fun _ => true, 9⟩ : Fs).files "q" :=
  c10_operations_target_only_entry_path (VersionFile.mk "p" "1.0.0") _ "2.0.0" "q"
    (by decide)

/-- A string containing no dash separator. -/
def dashFree (s : String) : Prop := ('-') ∉ s.data

instance (s : String) : Decidable (dashFree s) :=
  inferInstanceAs (Decidable (('-') ∉ s.data))

/-- An optional owner whose string, when present, contains no dash. -/
def dashFreeOwner : Option String → Prop
  | none => True
  | some o => dashFree o

instance (o : Option String) : Decidable (dashFreeOwner o) := by
  cases o <;> simp [dashFreeOwner] <;> infer_instance

/-- Splitting at the first dash is unambiguous when the parts before it are
dash-free. -/
theorem append_dash_inj {r₁ r₂ t₁ t₂ : List Char} (h₁ : '-' ∉ r₁) (h₂ : '-' ∉ r₂)
    (h : r₁ ++ '-' :: t₁ = r₂ ++ '-' :: t₂) : r₁ = r₂ ∧ t₁ = t₂ := by
  induction r₁ generalizing r₂ with
  | nil =>
    cases r₂ with
    | nil => simpa using h
    | cons b bs =>
      exfalso
      simp only [List.nil_append, List.cons_append, List.cons.injEq] at h
      exact h₂ (by rw [← h.1]; exact List.mem_cons_self _ _)
  | cons a as ih =>
    cases r₂ with
    | nil =>
      exfalso
      simp only [List.cons_append, List.nil_append, List.cons.injEq] at h
      exact h₁ (by rw [h.1]; exact List.mem_cons_self _ _)
    | cons b bs =>
      simp only [List.cons_append, List.cons.injEq] at h
      obtain ⟨hab, htail⟩ := h
      rw [List.mem_cons] at h₁ h₂
      push_neg at h₁ h₂
      obtain ⟨hr, ht⟩ := ih h₁.2 h₂.2 htail
      exact ⟨by rw [hab, hr], ht⟩

/-- Strings with equal character data are equal. -/
theorem string_data_inj {a b : String} (h : a.data = b.data) : a = b := by
  cases a; cases b; exact congrArg String.mk h

/-- Character data of the file name for an ownerless package. -/
theorem versionFileName_data_none (r n : String) :
    (versionFileName r ⟨n, none⟩).data =
      r.data ++ '-' :: (n.data ++ '-' :: VERSION_SUFFIX.data) := by
  have h1 : ("-" : String).data = ['-'] := rfl
  have h2 : ("" : String).data = ([] : List Char) := rfl
  simp [versionFileName, ownerString, String.data_append, h1, h2, List.append_assoc]

/-- Character data of the file name for an owned package. -/
theorem versionFileName_data_some (r o n : String) :
    (versionFileName r ⟨n, some o⟩).data =
      r.data ++ '-' :: (o.data ++ '-' :: (n.data ++ '-' :: VERSION_SUFFIX.data)) := by
  have h1 : ("-" : String).data = ['-'] := rfl
  simp [versionFileName, ownerString, String.data_append, h1, List.append_assoc]

/-- The file-name format is injective on dash-free components. -/
theorem versionFileName_inj {r₁ r₂ n₁ n₂ : String} {o₁ o₂ : Option String}
    (hr₁ : dashFree r₁) (hr₂ : dashFree r₂) (hn₁ : dashFree n₁)
    (hn₂ : dashFree n₂) (ho₁ : dashFreeOwner o₁) (ho₂ : dashFreeOwner o₂)
    (h : versionFileName r₁ ⟨n₁, o₁⟩ = versionFileName r₂ ⟨n₂, o₂⟩) :
    r₁ = r₂ ∧ o₁ = o₂ ∧ n₁ = n₂ := by
  have hd := congrArg String.data h
  cases o₁ with
  | none =>
    cases o₂ with
    | none =>
      rw [versionFileName_data_none, versionFileName_data_none] at hd
      obtain ⟨e1, e2⟩ := append_dash_inj hr₁ hr₂ hd
      obtain ⟨e3, _⟩ := append_dash_inj hn₁ hn₂ e2
      exact ⟨string_data_inj e1, rfl, string_data_inj e3⟩
    | some o₂ =>
      exfalso
      rw [versionFileName_data_none, versionFileName_data_some] at hd
      obtain ⟨_, e2⟩ := append_dash_inj hr₁ hr₂ hd
      obtain ⟨_, e4⟩ := append_dash_inj hn₁ ho₂ e2
      have hlen := congrArg List.length e4
      simp [List.length_append] at hlen
      omega
  | some o₁ =>
    cases o₂ with
    | none =>
      exfalso
      rw [versionFileName_data_some, versionFileName_data_none] at hd
      obtain ⟨_, e2⟩ := append_dash_inj hr₁ hr₂ hd
      obtain ⟨_, e4⟩ := append_dash_inj ho₁ hn₂ e2
      have hlen := congrArg List.length e4.symm
      simp [List.length_append] at hlen
      omega
    | some o₂ =>
      rw [versionFileName_data_some, versionFileName_data_some] at hd
      obtain ⟨e1, e2⟩ := append_dash_inj hr₁ hr₂ hd
      obtain ⟨e3, e4⟩ := append_dash_inj ho₁ ho₂ e2
      obtain ⟨e5, _⟩ := append_dash_inj hn₁ hn₂ e4
      exact ⟨string_data_inj e1, by rw [string_data_inj e3], string_data_inj e5⟩

/-- Counterexample to C6 as stated: the distinct triples
(registry `"a-b"`, no owner, name `"c"`) and (registry `"a"`, owner `"b"`,
name `"c"`) produce entries with the identical cache file path
`"d/a-b-c-latest-version"`. -/
theorem c6_distinct_triples_share_path :
    VersionFile.new (some "d") "a-b" ⟨"c", none⟩ "v" =
      .ok ⟨"d/a-b-c-latest-version", "v"⟩ ∧
    VersionFile.new (some "d") "a" ⟨"c", some "b"⟩ "v" =
      .ok ⟨"d/a-b-c-latest-version", "v"⟩ ∧
    (("a-b", (none : Option String), "c") ≠ ("a", some "b", "c")) := by
  refine ⟨by decide, by decide, by decide⟩

/-- C6 (amended): two distinct (registry, owner, package-name) triples whose
registry, owner and package names contain no dash character produce, for the
same cache directory, entries with distinct file paths; triples with dashes
inside their components may collide. -/
theorem c6_amended_distinct_paths (d r₁ r₂ n₁ n₂ : String)
    (o₁ o₂ : Option String) (v₁ v₂ : String) (vf₁ vf₂ : VersionFile)
    (hr₁ : dashFree r₁) (hr₂ : dashFree r₂) (hn₁ : dashFree n₁)
    (hn₂ : dashFree n₂) (ho₁ : dashFreeOwner o₁) (ho₂ : dashFreeOwner o₂)
    (hne : (r₁, o₁, n₁) ≠ (r₂, o₂, n₂))
    (h₁ : VersionFile.new (some d) r₁ ⟨n₁, o₁⟩ v₁ = .ok vf₁)
    (h₂ : VersionFile.new (some d) r₂ ⟨n₂, o₂⟩ v₂ = .ok vf₂) :
    vf₁.path ≠ vf₂.path := by
  intro hp
  have e₁ : vf₁ = ⟨pathJoin d (versionFileName r₁ ⟨n₁, o₁⟩), v₁⟩ := by
    have hnew : VersionFile.new (some d) r₁ ⟨n₁, o₁⟩ v₁ =
        .ok ⟨pathJoin d (versionFileName r₁ ⟨n₁, o₁⟩), v₁⟩ := rfl
    rw [hnew] at h₁
    exact (Except.ok.inj h₁).symm
  have e₂ : vf₂ = ⟨pathJoin d (versionFileName r₂ ⟨n₂, o₂⟩), v₂⟩ := by
    have hnew : VersionFile.new (some d) r₂ ⟨n₂, o₂⟩ v₂ =
        .ok ⟨pathJoin d (versionFileName r₂ ⟨n₂, o₂⟩), v₂⟩ := rfl
    rw [hnew] at h₂
    exact (Except.ok.inj h₂).symm
  subst e₁
  subst e₂
  simp only [pathJoin] at hp
  have hdata := congrArg String.data hp
  rw [String.data_append, String.data_append, String.data_append,
    String.data_append] at hdata
  have hf := string_data_inj (List.append_cancel_left hdata)
  have hcomp := versionFileName_inj hr₁ hr₂ hn₁ hn₂ ho₁ ho₂ hf
  exact hne (by rw [hcomp.1, hcomp.2.1, hcomp.2.2])

/-- Witness for the amended C6: two dash-free packages on the same registry
get distinct cache files. -/
theorem c6_amended_distinct_paths_witness :
    (VersionFile.mk "cache/reg-alpha-latest-version" "1.0.0").path ≠
      (VersionFile.mk "cache/reg-beta-latest-version" "1.0.0").path :=
  c6_amended_distinct_paths "cache" "reg" "reg" "alpha" "beta" none none
    "1.0.0" "1.0.0" ⟨"cache/reg-alpha-latest-version", "1.0.0"⟩
    ⟨"cache/reg-beta-latest-version", "1.0.0"⟩
    (by decide) (by decide) (by decide) (by decide) trivial trivial
    (by decide) (by decide) (by decide)

end UpdateInformer
